import Mathlib

/-!
Verification of the listings service core (`src/api/lib/utils.js` and its two
route files): the data-source selection/fallback policy (`selectDataSource`)
and the mock-path query engine (`listingsMockUtils.getListingsList`,
`listingRelatedMockUtils.getRelatedListingData`).

Modelling conventions for the shallow embedding:
* JS numbers that the code only compares, subtracts and takes absolute values
  of (prices, bed counts, areas, timestamps) are modelled as `Int`;
  `created_at` is modelled as milliseconds since the epoch, so
  `new Date(v || 0).getTime()` is `v.getD 0`.
* JS strings are Lean `String`s; `trim`, `toLowerCase`, `includes` and
  `parseInt` are given explicit executable models below.
* A JS plain object used as a counter dictionary is modelled as an
  insertion-ordered association list (`List (String × Nat)`); enumeration via
  `Object.entries` follows the ECMAScript own-property-key order: keys that
  are canonical array indices first, in ascending numeric order, then the
  remaining string keys in insertion order.  The prototype chain is outside
  the model (city/type names shadowing `Object.prototype` members are not
  considered).
* `Array.prototype.sort` is required by ECMAScript to be stable; for the
  consistent key-difference comparators used by the code it is modelled as a
  stable insertion sort by the comparator's key.
* The `async` wrappers never suspend observably in the mock path; handlers
  are modelled as pure functions, and a database handler outcome is an
  `Except` value (`error` = thrown exception / rejected promise).
-/

namespace Proposal

/-- Model of `Char`-list prefix matching used by the substring test. -/
def charsPre : List Char → List Char → Bool
  | [], _ => true
  | _ :: _, [] => false
  | a :: as, b :: bs => a == b && charsPre as bs

/-- Model of JS `String.prototype.includes`: `hasSub hay needle` is true iff
`needle` occurs contiguously inside `hay`. -/
def hasSub : List Char → List Char → Bool
  | [], needle => needle.isEmpty
  | h :: t, needle => charsPre needle (h :: t) || hasSub t needle

/-- Model of JS `String.prototype.toLowerCase` (ASCII-faithful). -/
def jsLower (s : String) : String := ⟨s.data.map Char.toLower⟩

/-- Character-level whitespace trim: drop leading whitespace, then trailing
whitespace (as a reversed leading drop). -/
def trimChars (l : List Char) : List Char :=
  ((l.dropWhile Char.isWhitespace).reverse.dropWhile Char.isWhitespace).reverse

/-- Model of JS `String.prototype.trim`: drop leading and trailing
whitespace. -/
def jsTrim (s : String) : String := ⟨trimChars s.data⟩

/-- Value of a nonempty leading digit run: `none` when the list does not start
with a decimal digit, otherwise the value of the longest leading digit run
(trailing garbage ignored, as in `parseInt`). -/
def digitsVal (l : List Char) : Option Nat :=
  let ds := l.takeWhile Char.isDigit
  if ds.isEmpty then none
  else some (ds.foldl (fun a c => a * 10 + (c.toNat - 48)) 0)

/-- Model of JS `parseInt(s, 10)`: skip leading whitespace, optional sign,
then the longest leading digit run; `none` models `NaN`. -/
def jsParseInt (s : String) : Option Int :=
  match s.data.dropWhile Char.isWhitespace with
  | '-' :: rest => (digitsVal rest).map (fun n => -(n : Int))
  | '+' :: rest => (digitsVal rest).map (fun n => (n : Int))
  | t => (digitsVal t).map (fun n => (n : Int))

/-- Canonical ECMAScript array-index property key: a nonempty all-digit string
without a leading zero (except `"0"` itself) whose value is below `2^32 - 1`.
Such keys are enumerated before all other string keys, in ascending numeric
order. -/
def isArrayIndexStr (s : String) : Option Nat :=
  match s.data with
  | [] => none
  | c :: cs =>
    if (c :: cs).all Char.isDigit then
      if c = '0' ∧ cs ≠ [] then none
      else
        let n := (c :: cs).foldl (fun a ch => a * 10 + (ch.toNat - 48)) 0
        if n < 4294967295 then some n else none
    else none

/-- Stable insertion of `x` into `l`: `x` is placed before the first element
whose key is `≥ key x`, hence after every earlier element with an equal key. -/
def insertK {α : Type} (key : α → Int) (x : α) : List α → List α
  | [] => [x]
  | y :: ys => if key x ≤ key y then x :: y :: ys else y :: insertK key x ys

/-- Stable sort ascending by an integer key: the model of
`Array.prototype.sort` with the comparator `(a, b) => key a - key b`
(ECMAScript requires the sort to be stable). -/
def sortByKey {α : Type} (key : α → Int) : List α → List α
  | [] => []
  | x :: xs => insertK key x (sortByKey key xs)

/-- A listing record, as consumed by the mock-path handlers.  Fields the code
reads through `|| 0` or `|| ""` defaults are optional. -/
structure Listing where
  id : Int
  title : String
  city : String
  type : String
  price : Int
  beds : Option Int
  area_m2 : Option Int
  address : Option String
  created_at : Option Int
deriving DecidableEq, Repr

/-- A numeric query parameter as the filter code sees it after the
`!== undefined && !== null && !== ""` guard and `Number(...)` coercion:
`absent` covers `undefined`/`null`/`""` (guard fails, stage skipped), `nan`
a present value that fails numeric parsing (`Number.isNaN` guard fails),
`num n` a successfully parsed number. -/
inductive NumParam where
  | absent
  | nan
  | num (n : Int)
deriving DecidableEq, Repr

/-- The filter bag passed by the listings route: string-valued query
parameters, each possibly absent. -/
structure Filters where
  q : Option String
  city : Option String
  type : Option String
  minPrice : NumParam
  maxPrice : NumParam
  beds : NumParam
  sort : Option String
deriving DecidableEq, Repr

/-- Body of the JSON response of `getListingsList`. -/
structure ListingsResponse where
  listings : List Listing
  source : String
deriving DecidableEq, Repr

/-- Body of the JSON response of `getRelatedListingData` on success. -/
structure RelatedResponse where
  listingId : String
  listingCity : String
  listingType : String
  relatedInCity : List Listing
  relatedByType : List Listing
  similarPrice : List Listing
  cityStats : List (String × Nat)
  typeStats : List (String × Nat)
  source : String
deriving DecidableEq, Repr

/-- Result of `getRelatedListingData`: the 404 "Listing not found" response or
the success bundle. -/
inductive RelatedResult where
  | notFound
  | ok (r : RelatedResponse)
deriving DecidableEq, Repr

/-- The haystack of the free-text stage:
the template string `title city address-or-empty type`
joined by single spaces, from
`x.title ++ " " ++ x.city ++ " " ++ (x.address || "") ++ " " ++ x.type`. -/
def searchBlob (x : Listing) : String :=
  x.title ++ " " ++ x.city ++ " " ++ x.address.getD "" ++ " " ++ x.type

/-- The normalized free-text needle `(filters.q || "").toString().trim().toLowerCase()`. -/
def qNorm (f : Filters) : String := jsLower (jsTrim (f.q.getD ""))

/-- One filter stage: `none` means the stage is skipped, `some p` means
`results = results.filter(p)`. -/
def applyStage (l : List Listing) : Option (Listing → Bool) → List Listing
  | none => l
  | some p => l.filter p

/-- Free-text stage `if (q) results = results.filter(x => blob.toLowerCase().includes(q))`. -/
def qStage (f : Filters) : Option (Listing → Bool) :=
  if qNorm f = "" then none
  else some (fun x => hasSub (jsLower (searchBlob x)).data (qNorm f).data)

/-- City stage `if (filters.city) results = results.filter(x => x.city === filters.city)`;
the JS truthiness test skips the stage for an absent or empty parameter. -/
def cityStage (f : Filters) : Option (Listing → Bool) :=
  match f.city with
  | none => none
  | some c => if c = "" then none else some (fun x => x.city == c)

/-- Type stage `if (filters.type) results = results.filter(x => x.type === filters.type)`. -/
def typeStage (f : Filters) : Option (Listing → Bool) :=
  match f.type with
  | none => none
  | some c => if c = "" then none else some (fun x => x.type == c)

/-- Minimum-price stage `results.filter(x => x.price >= minPrice)`, applied
only when the parameter is present and parses. -/
def minPriceStage (f : Filters) : Option (Listing → Bool) :=
  match f.minPrice with
  | NumParam.num n => some (fun x => decide (x.price ≥ n))
  | _ => none

/-- Maximum-price stage `results.filter(x => x.price <= maxPrice)`. -/
def maxPriceStage (f : Filters) : Option (Listing → Bool) :=
  match f.maxPrice with
  | NumParam.num n => some (fun x => decide (x.price ≤ n))
  | _ => none

/-- Beds stage `results.filter(x => Number(x.beds || 0) >= beds)`. -/
def bedsStage (f : Filters) : Option (Listing → Bool) :=
  match f.beds with
  | NumParam.num n => some (fun x => decide (x.beds.getD 0 ≥ n))
  | _ => none

/-- The six filter stages of `getListingsList`, in source order. -/
def stages (f : Filters) : List (Option (Listing → Bool)) :=
  [qStage f, cityStage f, typeStage f, minPriceStage f, maxPriceStage f, bedsStage f]

/-- The filter pipeline of `getListingsList` (everything before the sort
switch): each stage narrows the running `results`. -/
def filterListings (data : List Listing) (f : Filters) : List Listing :=
  (stages f).foldl applyStage data

/-- The sort switch of `getListingsList`.  Each recognized key sorts by the
corresponding comparator; the `default` case is a no-op.  Descending
comparators `(a, b) => bKey - aKey` are ascending sorts by the negated key. -/
def applySort (sort : Option String) (l : List Listing) : List Listing :=
  if sort = some "price_asc" then sortByKey (fun x => x.price) l
  else if sort = some "price_desc" then sortByKey (fun x => -x.price) l
  else if sort = some "area_desc" then sortByKey (fun x => -(x.area_m2.getD 0)) l
  else if sort = some "newest" then sortByKey (fun x => -(x.created_at.getD 0)) l
  else l

/-- Model of `listingsMockUtils.getListingsList`: copy the mock collection,
run the filter pipeline, then the sort switch, and answer with
`source: "mock"`. -/
def getListingsList (data : List Listing) (f : Filters) : ListingsResponse :=
  { listings := applySort f.sort (filterListings data f), source := "mock" }

/-- Model of `cities[k] || 0` on the counter object. -/
def jsObjGet (m : List (String × Nat)) (k : String) : Nat :=
  match m.find? (fun p => p.1 == k) with
  | some p => p.2
  | none => 0

/-- Model of `obj[k] = v` on a JS object: update the value in place when the
key exists, else append the key (insertion order records first encounter). -/
def jsObjSet (m : List (String × Nat)) (k : String) (v : Nat) : List (String × Nat) :=
  if m.any (fun p => p.1 == k) then m.map (fun p => if p.1 == k then (k, v) else p)
  else m ++ [(k, v)]

/-- Model of the counting loop
`data.forEach(x => { obj[key(x)] = (obj[key(x)] || 0) + 1 })`. -/
def countByKey (keyf : Listing → String) (data : List Listing) : List (String × Nat) :=
  data.foldl (fun m x => jsObjSet m (keyf x) (jsObjGet m (keyf x) + 1)) []

/-- Model of `Object.entries`: canonical array-index keys first in ascending
numeric order, then the remaining keys in insertion order. -/
def jsEntries (m : List (String × Nat)) : List (String × Nat) :=
  sortByKey (fun p => ((isArrayIndexStr p.1).getD 0 : Int))
      (m.filter (fun p => (isArrayIndexStr p.1).isSome))
    ++ m.filter (fun p => (isArrayIndexStr p.1).isNone)

/-- The statistics pipeline
`Object.entries(obj).map(...).sort((a, b) => b.count - a.count)`: a stable
sort by descending count over the entries enumeration. -/
def statsOf (keyf : Listing → String) (data : List Listing) : List (String × Nat) :=
  sortByKey (fun p => -(p.2 : Int)) (jsEntries (countByKey keyf data))

/-- Model of `listingRelatedMockUtils.getRelatedListingData`.  A `parseInt`
result of `NaN` makes the `find` fail (`x.id === NaN` is always false), hence
the immediate `notFound` in that branch. -/
def getRelatedListingData (data : List Listing) (listingId : String) : RelatedResult :=
  match jsParseInt listingId with
  | none => RelatedResult.notFound
  | some n =>
    match data.find? (fun x => x.id == n) with
    | none => RelatedResult.notFound
    | some listing =>
      RelatedResult.ok
        { listingId := listingId
          listingCity := listing.city
          listingType := listing.type
          relatedInCity :=
            (data.filter (fun x => x.city == listing.city && !(x.id == n))).take 3
          relatedByType :=
            (data.filter (fun x => x.type == listing.type && !(x.id == n))).take 3
          similarPrice :=
            (sortByKey (fun x => ((x.price - listing.price).natAbs : Int))
              (data.filter (fun x => !(x.id == n)))).take 3
          cityStats := statsOf (fun x => x.city) data
          typeStats := statsOf (fun x => x.type) data
          source := "mock" }

/-- Body of the JSON response of `getListingDetail` on success. -/
structure DetailResponse where
  listing : Listing
  source : String
deriving DecidableEq, Repr

/-- Result of `getListingDetail`: the 404 "Listing not found" response — a
plain error body with no `source` field — or the success body. -/
inductive DetailResult where
  | notFound
  | ok (r : DetailResponse)
deriving DecidableEq, Repr

/-- Model of `listingsMockUtils.getListingDetail`: parse the id, look the
listing up, answer 404 when absent and the listing with `source: "mock"`
otherwise. -/
def getListingDetail (data : List Listing) (listingId : String) : DetailResult :=
  match jsParseInt listingId with
  | none => DetailResult.notFound
  | some n =>
    match data.find? (fun x => x.id == n) with
    | none => DetailResult.notFound
    | some listing => DetailResult.ok { listing := listing, source := "mock" }

/-- The `source` field of a detail response's JSON body, when present: the
404 error body `{ error: "Listing not found" }` has none. -/
def detailSource : DetailResult → Option String
  | DetailResult.notFound => none
  | DetailResult.ok r => some r.source

/-- Observable outcome of one `selectDataSource` request: the value returned
to the caller (`Except.error` = an uncaught exception propagating out) and
how often each handler ran and how many diagnostic lines were logged. -/
structure SelectOutcome (α : Type) where
  response : Except String α
  dbCalls : Nat
  mockCalls : Nat
  logLines : Nat
deriving Repr

/-- Model of `selectDataSource(c, dbLogic, mockLogic)`.  `sourceParam` is the
`source` query parameter (`none` when absent or unreadable); `hasDb` is
`Boolean(c?.env && (c.env.SQL || c.env.DB))`; `dbLogic` is the awaited
outcome of the database handler; `mockLogic` the (non-throwing, pure) mock
handler's response. -/
def selectDataSource {α : Type} (sourceParam : Option String) (hasDb : Bool)
    (dbLogic : Except String α) (mockLogic : α) : SelectOutcome α :=
  if sourceParam = some "mock" then
    { response := Except.ok mockLogic, dbCalls := 0, mockCalls := 1, logLines := 0 }
  else if sourceParam = some "db" then
    { response := dbLogic, dbCalls := 1, mockCalls := 0, logLines := 0 }
  else if hasDb = false then
    { response := Except.ok mockLogic, dbCalls := 0, mockCalls := 1, logLines := 0 }
  else
    match dbLogic with
    | Except.ok r =>
      { response := Except.ok r, dbCalls := 1, mockCalls := 0, logLines := 0 }
    | Except.error _ =>
      { response := Except.ok mockLogic, dbCalls := 1, mockCalls := 1, logLines := 1 }

/-!
Instrumented embedding for the mutation claim.  JS arrays are references into
a store; `[...arr]` and `Array.prototype.filter` allocate fresh arrays, while
`Array.prototype.sort` writes its receiver in place.  The store only needs to
track listing arrays, the one kind of array the code sorts.
-/

/-- A store of JS arrays of listings; an array reference is an index. -/
abbrev Heap := List (List Listing)

/-- Allocate a fresh array holding `v`; answers the extended heap and the new
reference. -/
def hAlloc (h : Heap) (v : List Listing) : Heap × Nat := (h ++ [v], h.length)

/-- Dereference: the contents of array `r`. -/
def hRead (h : Heap) (r : Nat) : List Listing := h[r]?.getD []

/-- In-place write of array `r` (the model of a mutating `.sort`). -/
def hWrite (h : Heap) (r : Nat) (v : List Listing) : Heap := h.set r v

/-- One filter stage on the heap: a skipped stage leaves the reference alone;
an applied stage is `results = results.filter(p)`, which allocates a fresh
array and rebinds the variable. -/
def filterStageH (h : Heap) (r : Nat) : Option (Listing → Bool) → Heap × Nat
  | none => (h, r)
  | some p => hAlloc h ((hRead h r).filter p)

/-- The filter pipeline of `getListingsList` on the heap. -/
def runStagesH (h : Heap) (r : Nat) (ss : List (Option (Listing → Bool))) : Heap × Nat :=
  ss.foldl (fun pr s => filterStageH pr.1 pr.2 s) (h, r)

/-- The sort switch on the heap: a recognized key runs `results.sort(...)`,
mutating the array behind `results` in place; the default case does not touch
the heap. -/
def sortH (h : Heap) (r : Nat) (sort : Option String) : Heap × Nat :=
  if sort = some "price_asc" ∨ sort = some "price_desc" ∨
      sort = some "area_desc" ∨ sort = some "newest" then
    (hWrite h r (applySort sort (hRead h r)), r)
  else (h, r)

/-- Heap-level model of `getListingsList`: `let results = [...c.env.MOCK_DATA]`
copies the mock collection into a fresh array, the pipeline runs, the sort
mutates the array `results` finally denotes, and the response serializes its
contents. -/
def getListingsListH (h0 : Heap) (mock : Nat) (f : Filters) : Heap × ListingsResponse :=
  let a := hAlloc h0 (hRead h0 mock)
  let b := runStagesH a.1 a.2 (stages f)
  let c := sortH b.1 b.2 f.sort
  (c.1, { listings := hRead c.1 c.2, source := "mock" })

/-- Heap-level model of `getRelatedListingData`: the three `.filter(...)`
calls allocate fresh arrays out of `c.env.MOCK_DATA`, and the `.sort` of the
similar-price computation mutates the third of them in place. -/
def getRelatedListingDataH (h0 : Heap) (mock : Nat) (listingId : String) :
    Heap × RelatedResult :=
  match jsParseInt listingId with
  | none => (h0, RelatedResult.notFound)
  | some n =>
    match (hRead h0 mock).find? (fun x => x.id == n) with
    | none => (h0, RelatedResult.notFound)
    | some listing =>
      let data := hRead h0 mock
      let a1 := hAlloc h0 (data.filter (fun x => x.city == listing.city && !(x.id == n)))
      let a2 := hAlloc a1.1 (data.filter (fun x => x.type == listing.type && !(x.id == n)))
      let a3 := hAlloc a2.1 (data.filter (fun x => !(x.id == n)))
      let h4 := hWrite a3.1 a3.2
        (sortByKey (fun x => ((x.price - listing.price).natAbs : Int)) (hRead a3.1 a3.2))
      (h4, RelatedResult.ok
        { listingId := listingId
          listingCity := listing.city
          listingType := listing.type
          relatedInCity := (hRead h4 a1.2).take 3
          relatedByType := (hRead h4 a2.2).take 3
          similarPrice := (hRead h4 a3.2).take 3
          cityStats := statsOf (fun x => x.city) data
          typeStats := statsOf (fun x => x.type) data
          source := "mock" })

/-- Conjunction of the stage predicates of a stage list: true on a listing
iff every applied stage keeps it. -/
def stagePred (ss : List (Option (Listing → Bool))) (x : Listing) : Bool :=
  ss.all (fun s => match s with | none => true | some p => p x)

/-- Claim-side search predicate, written from the specification's wording of
the filter pipeline: a case-insensitive substring test of the trimmed `q`
against the space-joined concatenation of title, city, address (empty when
absent) and type; exact matches on city and type; inclusive price bounds; an
inclusive lower bound on beds with a missing `beds` field read as 0; each
clause trivially true when its parameter is absent, empty, or failed numeric
parsing. -/
def specMatches (f : Filters) (x : Listing) : Bool :=
  (if qNorm f = "" then true
   else hasSub (jsLower (searchBlob x)).data (qNorm f).data) &&
  (match f.city with
   | some c => if c = "" then true else x.city == c
   | none => true) &&
  (match f.type with
   | some c => if c = "" then true else x.type == c
   | none => true) &&
  (match f.minPrice with
   | NumParam.num n => decide (x.price ≥ n)
   | _ => true) &&
  (match f.maxPrice with
   | NumParam.num n => decide (x.price ≤ n)
   | _ => true) &&
  (match f.beds with
   | NumParam.num n => decide (x.beds.getD 0 ≥ n)
   | _ => true)

/-- The distinct values of a list in first-encountered order. -/
def firstKeys (l : List String) : List String :=
  l.foldl (fun acc c => if c ∈ acc then acc else acc ++ [c]) []

/-- One iteration of the counting loop, on a bare key. -/
def bumpKey (m : List (String × Nat)) (c : String) : List (String × Nat) :=
  jsObjSet m c (jsObjGet m c + 1)

/-- The counting loop over a bare key list. -/
def countFold (ks : List String) : List (String × Nat) := ks.foldl bumpKey []

/-- Invariant of the counting loop after consuming the keys `seen`: the
dictionary lists the distinct keys in first-encountered order, each bound to
its number of occurrences, and the counts sum to the number of keys seen. -/
def countInv (seen : List String) (m : List (String × Nat)) : Prop :=
  m.map Prod.fst = firstKeys seen ∧
  (∀ p ∈ m, p.2 = seen.count p.1) ∧
  (m.map Prod.snd).sum = seen.length

/-! Basic facts about the stable key sort. -/

theorem insertK_perm {α : Type} (key : α → Int) (x : α) (l : List α) :
    List.Perm (insertK key x l) (x :: l) := by
  induction l with
  | nil => exact List.Perm.refl _
  | cons y ys ih =>
    by_cases h : key x ≤ key y
    · rw [insertK, if_pos h]
    · rw [insertK, if_neg h]
      exact (ih.cons y).trans (List.Perm.swap x y ys)

theorem sortByKey_perm {α : Type} (key : α → Int) (l : List α) :
    List.Perm (sortByKey key l) l := by
  induction l with
  | nil => exact List.Perm.refl _
  | cons x xs ih => exact (insertK_perm key x (sortByKey key xs)).trans (ih.cons x)

theorem mem_insertK {α : Type} (key : α → Int) (x a : α) (l : List α) :
    a ∈ insertK key x l ↔ a = x ∨ a ∈ l := by
  rw [(insertK_perm key x l).mem_iff, List.mem_cons]

theorem insertK_pairwise {α : Type} (key : α → Int) (x : α) (l : List α)
    (h : l.Pairwise (fun a b => key a ≤ key b)) :
    (insertK key x l).Pairwise (fun a b => key a ≤ key b) := by
  induction l with
  | nil => simp [insertK]
  | cons y ys ih =>
    by_cases hxy : key x ≤ key y
    · rw [insertK, if_pos hxy]
      refine List.pairwise_cons.mpr ⟨?_, h⟩
      intro z hz
      rcases List.mem_cons.mp hz with rfl | hz
      · exact hxy
      · exact le_trans hxy (List.rel_of_pairwise_cons h hz)
    · rw [insertK, if_neg hxy]
      refine List.pairwise_cons.mpr ⟨?_, ih (List.pairwise_cons.mp h).2⟩
      intro z hz
      rcases (mem_insertK key x z ys).mp hz with rfl | hz
      · exact le_of_not_le hxy
      · exact List.rel_of_pairwise_cons h hz

theorem sortByKey_pairwise {α : Type} (key : α → Int) (l : List α) :
    (sortByKey key l).Pairwise (fun a b => key a ≤ key b) := by
  induction l with
  | nil => simp [sortByKey]
  | cons x xs ih => exact insertK_pairwise key x (sortByKey key xs) ih

theorem insertK_filter {α : Type} (key : α → Int) (x : α) (l : List α) (k : Int) :
    (insertK key x l).filter (fun a => decide (key a = k)) =
      if key x = k then x :: l.filter (fun a => decide (key a = k))
      else l.filter (fun a => decide (key a = k)) := by
  induction l with
  | nil => by_cases hk : key x = k <;> simp [insertK, hk]
  | cons y ys ih =>
    by_cases hxy : key x ≤ key y
    · rw [insertK, if_pos hxy]
      by_cases hk : key x = k <;> simp [List.filter_cons, hk]
    · rw [insertK, if_neg hxy]
      have hy : key y < key x := lt_of_not_le hxy
      by_cases hk : key x = k
      · have hyk : ¬ key y = k := by omega
        simp only [List.filter_cons, ih, if_pos hk, decide_eq_true_eq, if_neg hyk]
      · simp only [List.filter_cons, ih, if_neg hk]

theorem sortByKey_filter {α : Type} (key : α → Int) (l : List α) (k : Int) :
    (sortByKey key l).filter (fun a => decide (key a = k)) =
      l.filter (fun a => decide (key a = k)) := by
  induction l with
  | nil => rfl
  | cons x xs ih =>
    rw [sortByKey, insertK_filter]
    by_cases hk : key x = k
    · rw [if_pos hk, ih, List.filter_cons, if_pos (by simpa using hk)]
    · rw [if_neg hk, ih, List.filter_cons, if_neg (by simpa using hk)]

theorem sortByKey_pairwise_neg {α : Type} (val : α → Int) (l : List α) :
    (sortByKey (fun x => -(val x)) l).Pairwise (fun a b => val b ≤ val a) := by
  have h := sortByKey_pairwise (fun x : α => -(val x)) l
  exact h.imp (fun hab => by omega)

theorem sortByKey_filter_neg {α : Type} (val : α → Int) (l : List α) (p : Int) :
    (sortByKey (fun x => -(val x)) l).filter (fun x => decide (val x = p)) =
      l.filter (fun x => decide (val x = p)) := by
  rw [show (fun x : α => decide (val x = p)) = (fun x => decide (-(val x) = -p)) from by
    funext a; rw [decide_eq_decide]; omega]
  exact sortByKey_filter _ l (-p)

theorem pairwise_lt_of_le_of_nodup {α : Type} (val : α → Int) (l : List α)
    (hle : l.Pairwise (fun a b => val a ≤ val b)) (hnd : (l.map val).Nodup) :
    l.Pairwise (fun a b => val a < val b) := by
  have hne : l.Pairwise (fun a b => val a ≠ val b) := List.pairwise_map.mp hnd
  exact (hle.and hne).imp (fun h => lt_of_le_of_ne h.1 h.2)

/-! The filter pipeline collapses to one conjunctive filter. -/

theorem foldl_applyStage (ss : List (Option (Listing → Bool))) (data : List Listing) :
    ss.foldl applyStage data = data.filter (fun x => stagePred ss x) := by
  induction ss generalizing data with
  | nil =>
    simp only [List.foldl_nil, stagePred, List.all_nil]
    exact (List.filter_eq_self.mpr (fun a _ => rfl)).symm
  | cons s ss ih =>
    cases s with
    | none =>
      rw [List.foldl_cons]
      show ss.foldl applyStage data = _
      rw [ih]
      apply List.filter_congr
      intro x _
      simp [stagePred]
    | some p =>
      rw [List.foldl_cons]
      show ss.foldl applyStage (data.filter p) = _
      rw [ih, List.filter_filter]
      apply List.filter_congr
      intro x _
      simp [stagePred, Bool.and_comm]

/-! Idempotence of the whitespace trim. -/

theorem dropWhile_dropWhile {α : Type} (p : α → Bool) (l : List α) :
    (l.dropWhile p).dropWhile p = l.dropWhile p := by
  induction l with
  | nil => rfl
  | cons a t ih =>
    by_cases h : p a
    · rw [List.dropWhile_cons, if_pos h]
      exact ih
    · rw [List.dropWhile_cons, if_neg h, List.dropWhile_cons, if_neg h]

theorem dropWhile_head_false {α : Type} (p : α → Bool) (a : α) (t : List α)
    (h : (a :: t).dropWhile p = a :: t) : p a = false := by
  by_cases hp : p a
  · exfalso
    rw [List.dropWhile_cons, if_pos hp] at h
    have hlen := congrArg List.length h
    have hsub : List.Sublist (t.dropWhile p) t := List.dropWhile_sublist p
    have hle := hsub.length_le
    simp only [List.length_cons] at hlen
    omega
  · exact eq_false_of_ne_true hp

theorem dropWhile_of_dropWhile_append {α : Type} (p : α → Bool) (u v w : List α)
    (huv : u = v ++ w) (hu : u.dropWhile p = u) : v.dropWhile p = v := by
  cases v with
  | nil => rfl
  | cons a v' =>
    have ha : p a = false := by
      rw [huv] at hu
      exact dropWhile_head_false p a (v' ++ w) hu
    rw [List.dropWhile_cons, if_neg (by simp [ha])]

theorem trimChars_idem (l : List Char) : trimChars (trimChars l) = trimChars l := by
  unfold trimChars
  set ws := Char.isWhitespace with hws
  set u := l.dropWhile ws with hu
  set v := (u.reverse.dropWhile ws).reverse with hv
  have huu : u.dropWhile ws = u := by
    rw [hu]
    exact dropWhile_dropWhile ws l
  have hsplit : u = v ++ (u.reverse.takeWhile ws).reverse := by
    calc u = u.reverse.reverse := (List.reverse_reverse u).symm
      _ = (u.reverse.takeWhile ws ++ u.reverse.dropWhile ws).reverse := by
            rw [List.takeWhile_append_dropWhile]
      _ = (u.reverse.dropWhile ws).reverse ++ (u.reverse.takeWhile ws).reverse := by
            rw [List.reverse_append]
      _ = v ++ (u.reverse.takeWhile ws).reverse := by rw [hv]
  have hvfix : v.dropWhile ws = v := dropWhile_of_dropWhile_append ws u v _ hsplit huu
  have hvrev : v.reverse.dropWhile ws = v.reverse := by
    rw [hv, List.reverse_reverse]
    exact dropWhile_dropWhile ws u.reverse
  rw [hvfix, hvrev, List.reverse_reverse]

theorem jsTrim_idem (s : String) : jsTrim (jsTrim s) = jsTrim s := by
  show (⟨trimChars (trimChars s.data)⟩ : String) = ⟨trimChars s.data⟩
  rw [trimChars_idem]

/-! Facts about the counting loop and its dictionary. -/

theorem mem_foldl_firstKeys (l : List String) : ∀ (acc : List String) (c : String),
    (c ∈ l.foldl (fun a x => if x ∈ a then a else a ++ [x]) acc) ↔ (c ∈ acc ∨ c ∈ l) := by
  induction l with
  | nil => intro acc c; simp
  | cons a t ih =>
    intro acc c
    rw [List.foldl_cons, ih]
    by_cases h : a ∈ acc
    · rw [if_pos h, List.mem_cons]
      constructor
      · rintro (hc | hc)
        · exact Or.inl hc
        · exact Or.inr (Or.inr hc)
      · rintro (hc | rfl | hc)
        · exact Or.inl hc
        · exact Or.inl h
        · exact Or.inr hc
    · rw [if_neg h, List.mem_cons]
      constructor
      · rintro (hc | hc)
        · rcases List.mem_append.mp hc with hc | hc
          · exact Or.inl hc
          · exact Or.inr (Or.inl (List.mem_singleton.mp hc))
        · exact Or.inr (Or.inr hc)
      · rintro (hc | rfl | hc)
        · exact Or.inl (List.mem_append.mpr (Or.inl hc))
        · exact Or.inl (List.mem_append.mpr (Or.inr (List.mem_singleton.mpr rfl)))
        · exact Or.inr hc

theorem mem_firstKeys (l : List String) (c : String) : c ∈ firstKeys l ↔ c ∈ l := by
  unfold firstKeys
  rw [mem_foldl_firstKeys]
  simp

theorem nodup_foldl_firstKeys (l : List String) : ∀ acc, acc.Nodup →
    (l.foldl (fun a x => if x ∈ a then a else a ++ [x]) acc).Nodup := by
  induction l with
  | nil => intro acc h; exact h
  | cons a t ih =>
    intro acc h
    rw [List.foldl_cons]
    by_cases ha : a ∈ acc
    · rw [if_pos ha]
      exact ih acc h
    · rw [if_neg ha]
      apply ih
      simp [List.nodup_append, h, ha]

theorem firstKeys_nodup (l : List String) : (firstKeys l).Nodup :=
  nodup_foldl_firstKeys l [] List.nodup_nil

theorem firstKeys_concat (l : List String) (c : String) :
    firstKeys (l ++ [c]) =
      if c ∈ firstKeys l then firstKeys l else firstKeys l ++ [c] := by
  unfold firstKeys
  rw [List.foldl_append]
  rfl

theorem jsObjSet_found (c : String) (v : Nat) :
    ∀ m : List (String × Nat), (m.map Prod.fst).Nodup → ∀ p0,
      m.find? (fun p => p.1 == c) = some p0 →
      ((jsObjSet m c v).map Prod.fst = m.map Prod.fst) ∧
      (∀ q ∈ jsObjSet m c v, q = (c, v) ∨ (q ∈ m ∧ q.1 ≠ c)) ∧
      ((jsObjSet m c v).map Prod.snd).sum + p0.2 = (m.map Prod.snd).sum + v ∧
      p0 ∈ m ∧ p0.1 = c := by
  intro m
  induction m with
  | nil => intro _ p0 hf; simp [List.find?] at hf
  | cons p m' ih =>
    intro hnd p0 hf
    have hndtail : (m'.map Prod.fst).Nodup := (List.nodup_cons.mp hnd).2
    have hhead : p.1 ∉ m'.map Prod.fst := (List.nodup_cons.mp hnd).1
    by_cases hpc : (p.1 == c) = true
    · have hpeq : p.1 = c := by simpa using hpc
      have hfind : (p :: m').find? (fun q => q.1 == c) = some p :=
        List.find?_cons_of_pos _ hpc
      have hp0 : p0 = p := by
        rw [hfind] at hf
        exact (Option.some.inj hf).symm
      have hnoc : ∀ q ∈ m', (q.1 == c) = false := by
        intro q hq
        by_contra hcon
        have : q.1 = c := by simpa using eq_true_of_ne_false hcon
        exact hhead (hpeq ▸ this ▸ List.mem_map_of_mem Prod.fst hq)
      have hset : jsObjSet (p :: m') c v = (c, v) :: m' := by
        unfold jsObjSet
        rw [if_pos (by simp [List.any_cons, hpc])]
        rw [List.map_cons, if_pos hpc]
        congr 1
        rw [List.map_congr_left (fun q hq => by rw [if_neg (by simp [hnoc q hq])])]
        exact List.map_id m'
      refine ⟨?_, ?_, ?_, by rw [hp0]; exact List.mem_cons_self p m',
        by rw [hp0]; exact hpeq⟩
      · rw [hset, List.map_cons, List.map_cons, hpeq]
      · intro q hq
        rw [hset] at hq
        rcases List.mem_cons.mp hq with rfl | hq
        · exact Or.inl rfl
        · refine Or.inr ⟨List.mem_cons_of_mem p hq, ?_⟩
          simpa using hnoc q hq
      · rw [hset, hp0]
        simp only [List.map_cons, List.sum_cons]
        omega
    · have hfc : m'.find? (fun q => q.1 == c) = some p0 := by
        rw [List.find?_cons_of_neg _ (by simp [hpc])] at hf
        exact hf
      obtain ⟨hkeys', hmem', hsum', hp0mem, hp0c⟩ := ih hndtail p0 hfc
      have hany' : m'.any (fun q => q.1 == c) = true := by
        rw [List.any_eq_true]
        exact ⟨p0, hp0mem, by simp [hp0c]⟩
      have hset : jsObjSet (p :: m') c v = p :: jsObjSet m' c v := by
        unfold jsObjSet
        rw [if_pos (by simp [List.any_cons, hany']), if_pos hany']
        rw [List.map_cons, if_neg hpc]
      refine ⟨?_, ?_, ?_, List.mem_cons_of_mem p hp0mem, hp0c⟩
      · rw [hset, List.map_cons, List.map_cons, hkeys']
      · intro q hq
        rw [hset] at hq
        rcases List.mem_cons.mp hq with rfl | hq
        · exact Or.inr ⟨List.mem_cons_self q m', by simpa using hpc⟩
        · rcases hmem' q hq with h1 | ⟨h1, h2⟩
          · exact Or.inl h1
          · exact Or.inr ⟨List.mem_cons_of_mem p h1, h2⟩
      · rw [hset]
        simp only [List.map_cons, List.sum_cons]
        omega

theorem jsObjSet_missing (c : String) (v : Nat) (m : List (String × Nat))
    (hf : m.find? (fun p => p.1 == c) = none) :
    jsObjSet m c v = m ++ [(c, v)] := by
  unfold jsObjSet
  rw [if_neg]
  rw [List.any_eq_true]
  rintro ⟨p, hp, hpc⟩
  exact absurd hpc (by simpa using List.find?_eq_none.mp hf p hp)

theorem jsObjGet_found (m : List (String × Nat)) (c : String) (p0)
    (hf : m.find? (fun p => p.1 == c) = some p0) : jsObjGet m c = p0.2 := by
  unfold jsObjGet
  rw [hf]

theorem jsObjGet_missing (m : List (String × Nat)) (c : String)
    (hf : m.find? (fun p => p.1 == c) = none) : jsObjGet m c = 0 := by
  unfold jsObjGet
  rw [hf]

theorem not_mem_keys_of_find_none (m : List (String × Nat)) (c : String)
    (hf : m.find? (fun p => p.1 == c) = none) : c ∉ m.map Prod.fst := by
  intro hc
  obtain ⟨p, hp, hfst⟩ := List.mem_map.mp hc
  exact absurd (by simp [hfst] : (p.1 == c) = true)
    (by simpa using List.find?_eq_none.mp hf p hp)

theorem bumpKey_inv (seen : List String) (m : List (String × Nat)) (c : String)
    (h : countInv seen m) : countInv (seen ++ [c]) (bumpKey m c) := by
  obtain ⟨hkeys, hcnt, hsum⟩ := h
  have hnd : (m.map Prod.fst).Nodup := by rw [hkeys]; exact firstKeys_nodup seen
  cases hf : m.find? (fun p => p.1 == c) with
  | some p0 =>
    have hget : jsObjGet m c = p0.2 := jsObjGet_found m c p0 hf
    obtain ⟨hkeys', hmem', hsum', hp0mem, hp0c⟩ :=
      jsObjSet_found c (jsObjGet m c + 1) m hnd p0 hf
    have hcin : c ∈ firstKeys seen := by
      rw [← hkeys]
      exact hp0c ▸ List.mem_map_of_mem Prod.fst hp0mem
    refine ⟨?_, ?_, ?_⟩
    · rw [bumpKey, hkeys', hkeys, firstKeys_concat, if_pos hcin]
    · intro q hq
      rcases hmem' q hq with rfl | ⟨hqm, hqc⟩
      · show jsObjGet m c + 1 = (seen ++ [c]).count c
        rw [hget, List.count_append, hcnt p0 hp0mem, hp0c]
        simp
      · rw [hcnt q hqm, List.count_append]
        have : [c].count q.1 = 0 := by
          rw [List.count_eq_zero]
          simp [hqc]
        omega
    · have := hsum'
      rw [hget] at this
      rw [bumpKey]
      simp only [List.length_append, List.length_singleton]
      omega
  | none =>
    have hget : jsObjGet m c = 0 := jsObjGet_missing m c hf
    have hset : bumpKey m c = m ++ [(c, 1)] := by
      rw [bumpKey, hget]
      exact jsObjSet_missing c 1 m hf
    have hcnotin : c ∉ firstKeys seen := by
      rw [← hkeys]
      exact not_mem_keys_of_find_none m c hf
    have hcnotseen : c ∉ seen := fun hc => hcnotin ((mem_firstKeys seen c).mpr hc)
    refine ⟨?_, ?_, ?_⟩
    · rw [hset, List.map_append, hkeys, firstKeys_concat, if_neg hcnotin]
      rfl
    · intro q hq
      rw [hset] at hq
      rcases List.mem_append.mp hq with hqm | hqc
      · rw [hcnt q hqm, List.count_append]
        have hne : q.1 ≠ c := by
          intro he
          exact not_mem_keys_of_find_none m c hf (he ▸ List.mem_map_of_mem Prod.fst hqm)
        have : [c].count q.1 = 0 := by
          rw [List.count_eq_zero]
          simp [hne]
        omega
      · have : q = (c, 1) := List.mem_singleton.mp hqc
        subst this
        show (1 : Nat) = (seen ++ [c]).count c
        rw [List.count_append, List.count_eq_zero.mpr hcnotseen]
        simp
    · rw [hset]
      simp only [List.map_append, List.sum_append, List.length_append]
      simp [hsum]

theorem countFold_inv (ks : List String) : countInv ks (countFold ks) := by
  have h : ∀ (ks seen : List String) (m), countInv seen m →
      countInv (seen ++ ks) (ks.foldl bumpKey m) := by
    intro ks
    induction ks with
    | nil => intro seen m h; simpa using h
    | cons a t ih =>
      intro seen m h
      rw [List.foldl_cons]
      have := ih (seen ++ [a]) (bumpKey m a) (bumpKey_inv seen m a h)
      simpa [List.append_assoc] using this
  have h0 : countInv [] [] := ⟨rfl, by simp, rfl⟩
  simpa using h ks [] [] h0

theorem countByKey_eq_countFold (keyf : Listing → String) (data : List Listing) :
    countByKey keyf data = countFold (data.map keyf) := by
  unfold countByKey countFold bumpKey
  rw [List.foldl_map]

/-! Heap lemmas: reads across allocations and writes. -/

theorem hRead_append_lt (h : Heap) (v : List Listing) (i : Nat) (hi : i < h.length) :
    hRead (h ++ [v]) i = hRead h i := by
  unfold hRead
  rw [List.getElem?_append_left hi]

theorem hRead_alloc_self (h : Heap) (v : List Listing) : hRead (h ++ [v]) h.length = v := by
  unfold hRead
  rw [List.getElem?_concat_length]
  rfl

theorem hRead_set_ne (h : Heap) (i j : Nat) (v : List Listing) (hij : i ≠ j) :
    hRead (h.set i v) j = hRead h j := by
  unfold hRead
  rw [List.getElem?_set_ne hij]

theorem hRead_set_self (h : Heap) (i : Nat) (v : List Listing) (hi : i < h.length) :
    hRead (h.set i v) i = v := by
  unfold hRead
  rw [List.getElem?_set_self hi]
  rfl

theorem applySort_default (o : Option String)
    (h1 : o ≠ some "price_asc") (h2 : o ≠ some "price_desc")
    (h3 : o ≠ some "area_desc") (h4 : o ≠ some "newest") (l : List Listing) :
    applySort o l = l := by
  unfold applySort
  rw [if_neg h1, if_neg h2, if_neg h3, if_neg h4]

theorem runStagesH_spec (ss : List (Option (Listing → Bool))) :
    ∀ (h : Heap) (r : Nat), r < h.length →
      (h.length ≤ (runStagesH h r ss).1.length) ∧
      ((runStagesH h r ss).2 < (runStagesH h r ss).1.length) ∧
      (r ≤ (runStagesH h r ss).2) ∧
      (∀ i, i < h.length → hRead (runStagesH h r ss).1 i = hRead h i) ∧
      hRead (runStagesH h r ss).1 (runStagesH h r ss).2 =
        ss.foldl applyStage (hRead h r) := by
  induction ss with
  | nil => intro h r hr; exact ⟨le_refl _, hr, le_refl _, fun i _ => rfl, rfl⟩
  | cons s ss ih =>
    intro h r hr
    cases s with
    | none =>
      have he : runStagesH h r (none :: ss) = runStagesH h r ss := rfl
      rw [he]
      obtain ⟨h1, h2, h3, h4, h5⟩ := ih h r hr
      exact ⟨h1, h2, h3, h4, by rw [List.foldl_cons]; exact h5⟩
    | some p =>
      have he : runStagesH h r (some p :: ss) =
          runStagesH (h ++ [(hRead h r).filter p]) h.length ss := rfl
      rw [he]
      have hr' : h.length < (h ++ [(hRead h r).filter p]).length := by simp
      obtain ⟨h1, h2, h3, h4, h5⟩ := ih (h ++ [(hRead h r).filter p]) h.length hr'
      refine ⟨?_, h2, ?_, ?_, ?_⟩
      · exact le_trans (by simp) h1
      · exact le_trans (le_of_lt hr) h3
      · intro i hi
        rw [h4 i (by simp; omega)]
        exact hRead_append_lt h _ i hi
      · rw [h5, hRead_alloc_self, List.foldl_cons]
        rfl

theorem sortH_spec (h : Heap) (r : Nat) (o : Option String) (hr : r < h.length) :
    ((sortH h r o).2 = r) ∧
    ((sortH h r o).1.length = h.length) ∧
    (∀ i, i < h.length → i ≠ r → hRead (sortH h r o).1 i = hRead h i) ∧
    hRead (sortH h r o).1 r = applySort o (hRead h r) := by
  unfold sortH
  by_cases hc : (o = some "price_asc" ∨ o = some "price_desc" ∨
      o = some "area_desc" ∨ o = some "newest")
  · rw [if_pos hc]
    refine ⟨rfl, by simp [hWrite], ?_, ?_⟩
    · intro i hi hir
      exact hRead_set_ne h r i _ (fun he => hir he.symm)
    · exact hRead_set_self h r _ hr
  · rw [if_neg hc]
    push_neg at hc
    refine ⟨rfl, rfl, fun i _ _ => rfl, ?_⟩
    rw [applySort_default o hc.1 hc.2.1 hc.2.2.1 hc.2.2.2]

theorem getListingsListH_spec (h0 : Heap) (mock : Nat) (f : Filters)
    (hm : mock < h0.length) :
    hRead (getListingsListH h0 mock f).1 mock = hRead h0 mock ∧
    (getListingsListH h0 mock f).2 = getListingsList (hRead h0 mock) f := by
  obtain ⟨hlen, hrlt, hrge, hframe, hcontents⟩ :=
    runStagesH_spec (stages f) (h0 ++ [hRead h0 mock]) h0.length (by simp)
  set pr := runStagesH (h0 ++ [hRead h0 mock]) h0.length (stages f) with hpr
  obtain ⟨hs2, hslen, hsframe, hscontents⟩ := sortH_spec pr.1 pr.2 f.sort hrlt
  have hmock_lt : mock < pr.1.length := by
    simp only [List.length_append, List.length_singleton] at hlen
    omega
  have hmock_ne : mock ≠ pr.2 := by omega
  constructor
  · show hRead (sortH pr.1 pr.2 f.sort).1 mock = hRead h0 mock
    rw [hsframe mock hmock_lt hmock_ne, hframe mock (by simp; omega)]
    exact hRead_append_lt h0 _ mock hm
  · show ListingsResponse.mk (hRead (sortH pr.1 pr.2 f.sort).1 (sortH pr.1 pr.2 f.sort).2) "mock" =
      getListingsList (hRead h0 mock) f
    rw [hs2, hscontents, hcontents, hRead_alloc_self]
    rfl

theorem getRelatedListingDataH_spec (h0 : Heap) (mock : Nat) (s : String)
    (hm : mock < h0.length) :
    hRead (getRelatedListingDataH h0 mock s).1 mock = hRead h0 mock ∧
    (getRelatedListingDataH h0 mock s).2 = getRelatedListingData (hRead h0 mock) s := by
  unfold getRelatedListingDataH getRelatedListingData
  cases hp : jsParseInt s with
  | none => exact ⟨rfl, rfl⟩
  | some n =>
    dsimp only
    cases hfind : (hRead h0 mock).find? (fun x => x.id == n) with
    | none => exact ⟨rfl, rfl⟩
    | some t =>
      dsimp only [hAlloc, hWrite]
      rw [hRead_alloc_self]
      set data := hRead h0 mock with hdata
      set A := data.filter (fun x => x.city == t.city && !(x.id == n)) with hA
      set B := data.filter (fun x => x.type == t.type && !(x.id == n)) with hB
      set C := data.filter (fun x => !(x.id == n)) with hC
      set V := sortByKey (fun x => ((x.price - t.price).natAbs : Int)) C with hV
      have e0 : hRead ((((h0 ++ [A]) ++ [B]) ++ [C]).set
          (((h0 ++ [A]) ++ [B]).length) V) mock = hRead h0 mock := by
        rw [hRead_set_ne _ _ _ _
              (by simp only [List.length_append, List.length_singleton]; omega),
            hRead_append_lt _ _ _
              (by simp only [List.length_append, List.length_singleton]; omega),
            hRead_append_lt _ _ _
              (by simp only [List.length_append, List.length_singleton]; omega),
            hRead_append_lt _ _ _ hm]
      have e1 : hRead ((((h0 ++ [A]) ++ [B]) ++ [C]).set
          (((h0 ++ [A]) ++ [B]).length) V) h0.length = A := by
        rw [hRead_set_ne _ _ _ _
              (by simp only [List.length_append, List.length_singleton]; omega),
            hRead_append_lt _ _ _
              (by simp only [List.length_append, List.length_singleton]; omega),
            hRead_append_lt _ _ _
              (by simp only [List.length_append, List.length_singleton]; omega),
            hRead_alloc_self]
      have e2 : hRead ((((h0 ++ [A]) ++ [B]) ++ [C]).set
          (((h0 ++ [A]) ++ [B]).length) V) (h0 ++ [A]).length = B := by
        rw [hRead_set_ne _ _ _ _
              (by simp only [List.length_append, List.length_singleton]; omega),
            hRead_append_lt _ _ _
              (by simp only [List.length_append, List.length_singleton]; omega),
            hRead_alloc_self]
      have e3 : hRead ((((h0 ++ [A]) ++ [B]) ++ [C]).set
          (((h0 ++ [A]) ++ [B]).length) V) (((h0 ++ [A]) ++ [B]).length) = V :=
        hRead_set_self _ _ _
          (by simp only [List.length_append, List.length_singleton]; omega)
      refine ⟨e0, ?_⟩
      rw [e1, e2, e3]

/-! Facts about the statistics pipeline. -/

theorem jsEntries_perm (m : List (String × Nat)) : List.Perm (jsEntries m) m := by
  unfold jsEntries
  have h1 := sortByKey_perm (fun p : String × Nat => ((isArrayIndexStr p.1).getD 0 : Int))
    (m.filter (fun p => (isArrayIndexStr p.1).isSome))
  have hconv : m.filter (fun p => (isArrayIndexStr p.1).isNone) =
      m.filter (fun p => !(isArrayIndexStr p.1).isSome) := by
    apply List.filter_congr
    intro x _
    cases isArrayIndexStr x.1 <;> rfl
  have h2 : List.Perm (m.filter (fun p => (isArrayIndexStr p.1).isSome) ++
      m.filter (fun p => (isArrayIndexStr p.1).isNone)) m := by
    rw [hconv]
    exact List.filter_append_perm _ m
  exact (h1.append_right _).trans h2

theorem statsOf_perm (keyf : Listing → String) (data : List Listing) :
    List.Perm (statsOf keyf data) (countByKey keyf data) := by
  unfold statsOf
  exact (sortByKey_perm _ _).trans (jsEntries_perm _)

theorem jsEntries_of_no_index (m : List (String × Nat))
    (h : ∀ p ∈ m, isArrayIndexStr p.1 = none) : jsEntries m = m := by
  unfold jsEntries
  have h1 : m.filter (fun p => (isArrayIndexStr p.1).isSome) = [] := by
    rw [List.filter_eq_nil_iff]
    intro p hp
    simp [h p hp]
  have h2 : m.filter (fun p => (isArrayIndexStr p.1).isNone) = m := by
    rw [List.filter_eq_self]
    intro p hp
    simp [h p hp]
  rw [h1, h2]
  rfl

theorem countByKey_inv (keyf : Listing → String) (data : List Listing) :
    countInv (data.map keyf) (countByKey keyf data) := by
  rw [countByKey_eq_countFold]
  exact countFold_inv _

/-- Unconditional characterization of the city/type statistics: coverage of
all distinct key values, distinctness, correct counts, counts summing to the
collection size, descending order by count, and the dictionary keys in
first-encounter order.  All of these are invariant under the `Object.entries`
reordering, so no condition on the key names is needed. -/
theorem statsOf_spec_base (keyf : Listing → String) (data : List Listing) :
    (∀ c, c ∈ (statsOf keyf data).map Prod.fst ↔ ∃ x ∈ data, keyf x = c) ∧
    ((statsOf keyf data).map Prod.fst).Nodup ∧
    (∀ p ∈ statsOf keyf data, p.2 = data.countP (fun x => keyf x == p.1)) ∧
    ((statsOf keyf data).map Prod.snd).sum = data.length ∧
    (statsOf keyf data).Pairwise (fun p q => q.2 ≤ p.2) ∧
    (countByKey keyf data).map Prod.fst = firstKeys (data.map keyf) := by
  obtain ⟨hkeys, hcnt, hsum⟩ := countByKey_inv keyf data
  have hperm : List.Perm (statsOf keyf data) (countByKey keyf data) :=
    statsOf_perm keyf data
  refine ⟨?_, ?_, ?_, ?_, ?_, hkeys⟩
  · intro c
    rw [(hperm.map Prod.fst).mem_iff, hkeys, mem_firstKeys]
    constructor
    · intro hc
      obtain ⟨x, hx, hxk⟩ := List.mem_map.mp hc
      exact ⟨x, hx, hxk⟩
    · rintro ⟨x, hx, hxk⟩
      exact List.mem_map.mpr ⟨x, hx, hxk⟩
  · exact ((hperm.map Prod.fst).nodup_iff).mpr (hkeys ▸ firstKeys_nodup _)
  · intro p hp
    have hpm : p ∈ countByKey keyf data := hperm.subset hp
    rw [hcnt p hpm, List.count_eq_countP, List.countP_map]
    rfl
  · rw [(hperm.map Prod.snd).sum_eq, hsum, List.length_map]
  · unfold statsOf
    have h := sortByKey_pairwise_neg (fun p : String × Nat => (p.2 : Int))
      (jsEntries (countByKey keyf data))
    exact h.imp (fun hab => by exact_mod_cast hab)

/-- Tie-break characterization of the statistics, valid when no key is a
canonical array-index string (so `Object.entries` order is plain insertion
order): every equal-count fiber of the statistics equals the corresponding
fiber of the dictionary, whose keys are in first-encounter order. -/
theorem statsOf_spec_ties (keyf : Listing → String) (data : List Listing)
    (hidx : ∀ x ∈ data, isArrayIndexStr (keyf x) = none) :
    ∀ m : Nat, (statsOf keyf data).filter (fun p => decide (p.2 = m)) =
      (countByKey keyf data).filter (fun p => decide (p.2 = m)) := by
  obtain ⟨hkeys, hcnt, hsum⟩ := countByKey_inv keyf data
  have hidx' : ∀ p ∈ countByKey keyf data, isArrayIndexStr p.1 = none := by
    intro p hp
    have hmem : p.1 ∈ (countByKey keyf data).map Prod.fst := List.mem_map_of_mem _ hp
    rw [hkeys, mem_firstKeys] at hmem
    obtain ⟨x, hx, hxk⟩ := List.mem_map.mp hmem
    exact hxk ▸ hidx x hx
  have hent : jsEntries (countByKey keyf data) = countByKey keyf data :=
    jsEntries_of_no_index _ hidx'
  have hstats : statsOf keyf data =
      sortByKey (fun p => -(p.2 : Int)) (countByKey keyf data) := by
    unfold statsOf
    rw [hent]
  intro m
  rw [hstats]
  rw [show (fun p : String × Nat => decide (p.2 = m)) =
      (fun p : String × Nat => decide ((p.2 : Int) = (m : Int))) from by
    funext p
    rw [decide_eq_decide]
    omega]
  exact sortByKey_filter_neg _ _ _

/-- Reduction of `getRelatedListingData` on an existing target. -/
theorem getRelatedListingData_ok (data : List Listing) (s : String) (n : Int)
    (t : Listing) (h1 : jsParseInt s = some n)
    (h2 : data.find? (fun x => x.id == n) = some t) :
    getRelatedListingData data s = RelatedResult.ok
      { listingId := s
        listingCity := t.city
        listingType := t.type
        relatedInCity :=
          (data.filter (fun x => x.city == t.city && !(x.id == n))).take 3
        relatedByType :=
          (data.filter (fun x => x.type == t.type && !(x.id == n))).take 3
        similarPrice :=
          (sortByKey (fun x => ((x.price - t.price).natAbs : Int))
            (data.filter (fun x => !(x.id == n)))).take 3
        cityStats := statsOf (fun x => x.city) data
        typeStats := statsOf (fun x => x.type) data
        source := "mock" } := by
  unfold getRelatedListingData
  rw [h1]
  dsimp only
  rw [h2]

/-- Every successful related response carries `source: "mock"`. -/
theorem getRelatedListingData_source (data : List Listing) (s : String)
    (r : RelatedResponse) (h : getRelatedListingData data s = RelatedResult.ok r) :
    r.source = "mock" := by
  unfold getRelatedListingData at h
  cases hp : jsParseInt s with
  | none =>
    rw [hp] at h
    simp at h
  | some n =>
    rw [hp] at h
    dsimp only at h
    cases hfind : data.find? (fun x => x.id == n) with
    | none =>
      rw [hfind] at h
      simp at h
    | some t =>
      rw [hfind] at h
      dsimp only at h
      injection h with h'
      rw [← h']

/-- Every successful detail response carries `source: "mock"`. -/
theorem getListingDetail_source (data : List Listing) (s : String)
    (r : DetailResponse) (h : getListingDetail data s = DetailResult.ok r) :
    r.source = "mock" := by
  unfold getListingDetail at h
  cases hp : jsParseInt s with
  | none =>
    rw [hp] at h
    simp at h
  | some n =>
    rw [hp] at h
    dsimp only at h
    cases hfind : data.find? (fun x => x.id == n) with
    | none =>
      rw [hfind] at h
      simp at h
    | some t =>
      rw [hfind] at h
      dsimp only at h
      injection h with h'
      rw [← h']

/-! Claims. -/

/-- C1 counterexample: the claimed "carries source \"mock\"" conjunct fails
for the detail route.  With `env.DB` bound but `env.SQL` unset the
availability check passes and the detail route's database handler throws
(reading a property of the undefined `SQL`); the caught fallback runs
`getListingDetail`, and for an id outside the collection its response is the
404 error body, which has no `source` field at all — even though the
fallback machinery itself (one log line, one mock call, a returned success,
no propagated error) behaves as claimed. -/
theorem c1_selectDataSource_counterexample :
    (selectDataSource none true (Except.error "db failed")
        (getListingDetail [] "1")).response = Except.ok DetailResult.notFound ∧
    (selectDataSource none true (Except.error "db failed")
        (getListingDetail [] "1")).logLines = 1 ∧
    (selectDataSource none true (Except.error "db failed")
        (getListingDetail [] "1")).mockCalls = 1 ∧
    detailSource DetailResult.notFound ≠ some "mock" :=
  ⟨rfl, rfl, rfl, by decide⟩

/-- C1 (amended): for every request with no source override (the `source`
parameter is neither `"mock"` nor `"db"`) and a database binding present, a
database handler failure is caught by `selectDataSource`: exactly one
diagnostic line is logged, the mock handler — whatever its response type —
runs exactly once and its response is returned unchanged as a success, the
database handler ran exactly once, and the database error never reaches the
caller.  The returned response carries `source: "mock"` whenever the mock
handler's response does, which the listings-list response always does and
the related and detail responses do on success; the detail handler's
not-found fallback is a 404 body with no `source` field. -/
theorem c1_selectDataSource_db_failure {α : Type} (sp : Option String)
    (h1 : sp ≠ some "mock") (h2 : sp ≠ some "db") (e : String) (mockResponse : α) :
    (selectDataSource sp true (Except.error e) mockResponse).response =
      Except.ok mockResponse ∧
    (selectDataSource sp true (Except.error e) mockResponse).logLines = 1 ∧
    (selectDataSource sp true (Except.error e) mockResponse).mockCalls = 1 ∧
    (selectDataSource sp true (Except.error e) mockResponse).dbCalls = 1 ∧
    (∀ (data : List Listing) (f : Filters), (getListingsList data f).source = "mock") ∧
    (∀ (data : List Listing) (sid : String) (r : RelatedResponse),
      getRelatedListingData data sid = RelatedResult.ok r → r.source = "mock") ∧
    (∀ (data : List Listing) (sid : String) (r : DetailResponse),
      getListingDetail data sid = DetailResult.ok r → r.source = "mock") := by
  have hsel : selectDataSource sp true (Except.error e) mockResponse =
      { response := Except.ok mockResponse, dbCalls := 1, mockCalls := 1, logLines := 1 } := by
    unfold selectDataSource
    rw [if_neg h1, if_neg h2, if_neg (by simp)]
  rw [hsel]
  exact ⟨rfl, rfl, rfl, rfl, fun _ _ => rfl,
    fun data sid r h => getRelatedListingData_source data sid r h,
    fun data sid r h => getListingDetail_source data sid r h⟩

/-- Witness for C1 (amended) at a concrete request through the detail
handler. -/
theorem c1_selectDataSource_db_failure_witness :
    (selectDataSource none true (Except.error "boom")
      (getListingDetail [] "1")).response = Except.ok (getListingDetail [] "1") ∧
    (selectDataSource none true (Except.error "boom")
      (getListingDetail [] "1")).logLines = 1 := by
  have h := c1_selectDataSource_db_failure none (by simp) (by simp) "boom"
    (getListingDetail [] "1")
  exact ⟨h.1, h.2.1⟩

/-- C2: the `source` override parameter: `"mock"` runs only the mock handler
(whatever the binding state and the database outcome, no log, no database
call); `"db"` runs only the database handler with no catch, so a database
error propagates to the caller; any other override value is ignored and the
request behaves exactly like one with no override. -/
theorem c2_selectDataSource_override {α : Type} (hasDb : Bool)
    (db : Except String α) (m : α) :
    (selectDataSource (some "mock") hasDb db m =
      { response := Except.ok m, dbCalls := 0, mockCalls := 1, logLines := 0 }) ∧
    (selectDataSource (some "db") hasDb db m =
      { response := db, dbCalls := 1, mockCalls := 0, logLines := 0 }) ∧
    (∀ e, db = Except.error e →
      (selectDataSource (some "db") hasDb db m).response = Except.error e) ∧
    (∀ s : String, s ≠ "mock" → s ≠ "db" →
      selectDataSource (some s) hasDb db m = selectDataSource none hasDb db m) := by
  refine ⟨?_, ?_, ?_, ?_⟩
  · unfold selectDataSource
    rw [if_pos rfl]
  · unfold selectDataSource
    rw [if_neg (by simp), if_pos rfl]
  · intro e he
    subst he
    unfold selectDataSource
    rw [if_neg (by simp), if_pos rfl]
  · intro s hs1 hs2
    simp [selectDataSource, hs1, hs2]

/-- Witness for C2 at concrete values. -/
theorem c2_selectDataSource_override_witness :
    (selectDataSource (some "mock") true (Except.error "x") (5 : Nat) =
      { response := Except.ok 5, dbCalls := 0, mockCalls := 1, logLines := 0 }) ∧
    ((selectDataSource (some "db") true (Except.error "x") (5 : Nat)).response =
      Except.error "x") ∧
    (selectDataSource (some "bogus") true (Except.error "x") (5 : Nat) =
      selectDataSource none true (Except.error "x") 5) :=
  ⟨(c2_selectDataSource_override true (Except.error "x") 5).1,
   (c2_selectDataSource_override true (Except.error "x") 5).2.2.1 "x" rfl,
   (c2_selectDataSource_override true (Except.error "x") 5).2.2.2 "bogus"
     (by decide) (by decide)⟩

set_option maxHeartbeats 1600000 in
/-- C3: the filter pipeline of `getListingsList` applies the six stages in
source order q, city, type, minPrice, maxPrice, beds, and its value is
exactly the collection filtered by the conjunction of the stages' predicates:
the trimmed, lowercased `q` as a case-insensitive substring of the
space-joined title/city/address-or-empty/type; exact city and type matches;
inclusive price bounds; an inclusive lower bound on beds with a missing
`beds` field read as 0.  A stage whose parameter is absent, the empty string,
or unparseable contributes the trivial predicate, and the whole pipeline is a
total function, so no input raises an error. -/
theorem c3_filter_pipeline (data : List Listing) (f : Filters) :
    filterListings data f = data.filter (specMatches f) ∧
    (getListingsList data f).listings = applySort f.sort (filterListings data f) := by
  constructor
  · rw [filterListings, foldl_applyStage]
    apply List.filter_congr
    intro x _
    simp only [stages, stagePred, List.all_cons, List.all_nil, Bool.and_true]
    unfold specMatches qStage cityStage typeStage minPriceStage maxPriceStage bedsStage
    cases hc : f.city <;> cases ht : f.type <;> cases hm : f.minPrice <;>
      cases hM : f.maxPrice <;> cases hb : f.beds <;>
      by_cases hq : qNorm f = "" <;>
      simp [hq, Bool.and_assoc] <;>
      (first
        | rfl
        | (split_ifs <;> simp_all [Bool.and_assoc]))
  · rfl

/-- C4: the sort stage orders the filtered list exactly per the sort key —
ascending price for `price_asc`, descending price for `price_desc`,
descending `area_m2` with missing read as 0 for `area_desc`, descending
`created_at` with missing read as the epoch for `newest` — each as a stable
permutation (listings of equal key keep their filtered order, stated as
preservation of every equal-key fiber); an absent or unrecognized sort key
leaves the filtered order unchanged. -/
theorem c4_sort_stage (l : List Listing) :
    (List.Perm (applySort (some "price_asc") l) l ∧
      (applySort (some "price_asc") l).Pairwise (fun a b => a.price ≤ b.price) ∧
      ∀ p : Int, (applySort (some "price_asc") l).filter (fun x => decide (x.price = p)) =
        l.filter (fun x => decide (x.price = p))) ∧
    (List.Perm (applySort (some "price_desc") l) l ∧
      (applySort (some "price_desc") l).Pairwise (fun a b => b.price ≤ a.price) ∧
      ∀ p : Int, (applySort (some "price_desc") l).filter (fun x => decide (x.price = p)) =
        l.filter (fun x => decide (x.price = p))) ∧
    (List.Perm (applySort (some "area_desc") l) l ∧
      (applySort (some "area_desc") l).Pairwise
        (fun a b => b.area_m2.getD 0 ≤ a.area_m2.getD 0) ∧
      ∀ p : Int, (applySort (some "area_desc") l).filter
          (fun x => decide (x.area_m2.getD 0 = p)) =
        l.filter (fun x => decide (x.area_m2.getD 0 = p))) ∧
    (List.Perm (applySort (some "newest") l) l ∧
      (applySort (some "newest") l).Pairwise
        (fun a b => b.created_at.getD 0 ≤ a.created_at.getD 0) ∧
      ∀ p : Int, (applySort (some "newest") l).filter
          (fun x => decide (x.created_at.getD 0 = p)) =
        l.filter (fun x => decide (x.created_at.getD 0 = p))) ∧
    (applySort none l = l) ∧
    (∀ s : String, s ≠ "price_asc" → s ≠ "price_desc" → s ≠ "area_desc" → s ≠ "newest" →
      applySort (some s) l = l) ∧
    (∀ (data : List Listing) (f : Filters),
      (getListingsList data f).listings = applySort f.sort (filterListings data f)) := by
  have ha : applySort (some "price_asc") l = sortByKey (fun x => x.price) l := by
    unfold applySort
    rw [if_pos rfl]
  have hd : applySort (some "price_desc") l = sortByKey (fun x => -x.price) l := by
    unfold applySort
    rw [if_neg (by simp), if_pos rfl]
  have har : applySort (some "area_desc") l = sortByKey (fun x => -(x.area_m2.getD 0)) l := by
    unfold applySort
    rw [if_neg (by simp), if_neg (by simp), if_pos rfl]
  have hn : applySort (some "newest") l = sortByKey (fun x => -(x.created_at.getD 0)) l := by
    unfold applySort
    rw [if_neg (by simp), if_neg (by simp), if_neg (by simp), if_pos rfl]
  refine ⟨⟨?_, ?_, ?_⟩, ⟨?_, ?_, ?_⟩, ⟨?_, ?_, ?_⟩, ⟨?_, ?_, ?_⟩, ?_, ?_, fun _ _ => rfl⟩
  · rw [ha]; exact sortByKey_perm _ l
  · rw [ha]; exact sortByKey_pairwise _ l
  · intro p; rw [ha]; exact sortByKey_filter _ l p
  · rw [hd]; exact sortByKey_perm _ l
  · rw [hd]; exact sortByKey_pairwise_neg (fun x => x.price) l
  · intro p; rw [hd]; exact sortByKey_filter_neg (fun x => x.price) l p
  · rw [har]; exact sortByKey_perm _ l
  · rw [har]; exact sortByKey_pairwise_neg (fun x => x.area_m2.getD 0) l
  · intro p; rw [har]; exact sortByKey_filter_neg (fun x => x.area_m2.getD 0) l p
  · rw [hn]; exact sortByKey_perm _ l
  · rw [hn]; exact sortByKey_pairwise_neg (fun x => x.created_at.getD 0) l
  · intro p; rw [hn]; exact sortByKey_filter_neg (fun x => x.created_at.getD 0) l p
  · exact applySort_default none (by simp) (by simp) (by simp) (by simp) l
  · intro s h1 h2 h3 h4
    exact applySort_default (some s) (by simp [h1]) (by simp [h2]) (by simp [h3])
      (by simp [h4]) l

/-- Witness for C4: the unrecognized-key clause at a concrete key and list. -/
theorem c4_sort_stage_witness :
    applySort (some "oops") [] = [] ∧
    List.Perm (applySort (some "price_asc") ([] : List Listing)) [] :=
  ⟨(c4_sort_stage []).2.2.2.2.2.1 "oops" (by decide) (by decide) (by decide) (by decide),
   (c4_sort_stage []).1.1⟩

/-- C5: `related` parses the target id with `parseInt` and answers the
not-found value — a plain 404 response, never a thrown exception, which the
totality of the embedding makes intrinsic — exactly when the id fails to
parse or no listing of the collection bears the parsed id; in particular a
non-numeric id always yields not-found. -/
theorem c5_related_notFound (data : List Listing) (s : String) :
    (getRelatedListingData data s = RelatedResult.notFound ↔
      (match jsParseInt s with
       | none => True
       | some n => ∀ x ∈ data, x.id ≠ n)) ∧
    (jsParseInt s = none → getRelatedListingData data s = RelatedResult.notFound) := by
  constructor
  · cases hp : jsParseInt s with
    | none => simp [getRelatedListingData, hp]
    | some n =>
      unfold getRelatedListingData
      rw [hp]
      dsimp only
      cases hfind : data.find? (fun x => x.id == n) with
      | none =>
        simp only [iff_true]
        constructor
        · intro _ x hx
          have := List.find?_eq_none.mp hfind x hx
          simpa using this
        · intro _
          trivial
      | some t =>
        have ht1 : t ∈ data := List.mem_of_find?_eq_some hfind
        have ht2 : t.id = n := by simpa using List.find?_some hfind
        constructor
        · intro h
          exact absurd h (by simp)
        · intro h
          exact absurd ht2 (h t ht1)
  · intro hp
    simp [getRelatedListingData, hp]

/-- Witness for C5: the implication clause at a concrete non-numeric id. -/
theorem c5_related_notFound_witness :
    getRelatedListingData [] "abc" = RelatedResult.notFound :=
  (c5_related_notFound [] "abc").2 (by decide)

/-- C6: on an existing target id, the same-city and same-type lists are the
first 3 collection-order matches and the similar-price list the first 3 of
the other listings in ascending order of absolute price difference from the
target; all three lists exclude the target's id and have at most 3 elements;
the similar-price order is a stable sort (a permutation sorted by the
difference key that preserves every equal-difference fiber of the collection
order). -/
theorem c6_related_lists (data : List Listing) (s : String) (n : Int) (t : Listing)
    (h1 : jsParseInt s = some n) (h2 : data.find? (fun x => x.id == n) = some t) :
    ∃ r, getRelatedListingData data s = RelatedResult.ok r ∧
      r.relatedInCity = (data.filter (fun x => x.city == t.city && !(x.id == n))).take 3 ∧
      r.relatedByType = (data.filter (fun x => x.type == t.type && !(x.id == n))).take 3 ∧
      r.relatedInCity.length ≤ 3 ∧ r.relatedByType.length ≤ 3 ∧
      r.similarPrice.length ≤ 3 ∧
      (∀ x ∈ r.relatedInCity, x.id ≠ n) ∧ (∀ x ∈ r.relatedByType, x.id ≠ n) ∧
      (∀ x ∈ r.similarPrice, x.id ≠ n) ∧
      ∃ sorted : List Listing,
        r.similarPrice = sorted.take 3 ∧
        List.Perm sorted (data.filter (fun x => !(x.id == n))) ∧
        sorted.Pairwise (fun a b =>
          (a.price - t.price).natAbs ≤ (b.price - t.price).natAbs) ∧
        (∀ d : Nat, sorted.filter (fun x => decide ((x.price - t.price).natAbs = d)) =
          (data.filter (fun x => !(x.id == n))).filter
            (fun x => decide ((x.price - t.price).natAbs = d))) := by
  have hres := getRelatedListingData_ok data s n t h1 h2
  refine ⟨_, hres, rfl, rfl, ?_, ?_, ?_, ?_, ?_, ?_, ?_⟩
  · rw [List.length_take]
    exact min_le_left _ _
  · rw [List.length_take]
    exact min_le_left _ _
  · rw [List.length_take]
    exact min_le_left _ _
  · intro x hx
    have hmem := List.mem_of_mem_take hx
    have := (List.mem_filter.mp hmem).2
    simp only [Bool.and_eq_true] at this
    simpa using this.2
  · intro x hx
    have hmem := List.mem_of_mem_take hx
    have := (List.mem_filter.mp hmem).2
    simp only [Bool.and_eq_true] at this
    simpa using this.2
  · intro x hx
    have hmem := List.mem_of_mem_take hx
    have hmem2 := (sortByKey_perm _ _).subset hmem
    have := (List.mem_filter.mp hmem2).2
    simpa using this
  · refine ⟨sortByKey (fun x => ((x.price - t.price).natAbs : Int))
      (data.filter (fun x => !(x.id == n))), rfl, sortByKey_perm _ _, ?_, ?_⟩
    · have h := sortByKey_pairwise (fun x => ((x.price - t.price).natAbs : Int))
        (data.filter (fun x => !(x.id == n)))
      exact h.imp (fun hab => by exact_mod_cast hab)
    · intro d
      rw [show (fun x : Listing => decide ((x.price - t.price).natAbs = d)) =
          (fun x : Listing => decide (((x.price - t.price).natAbs : Int) = (d : Int))) from by
        funext a
        rw [decide_eq_decide]
        omega]
      exact sortByKey_filter _ _ _

/-- Witness for C6 at a concrete collection and id. -/
theorem c6_related_lists_witness :
    ∃ r, getRelatedListingData
        [⟨1, "a", "X", "flat", 100, none, none, none, none⟩,
         ⟨2, "b", "X", "house", 200, none, none, none, none⟩,
         ⟨3, "c", "Y", "flat", 150, none, none, none, none⟩] "1" =
      RelatedResult.ok r ∧ r.similarPrice.length ≤ 3 := by
  obtain ⟨r, hr, _, _, _, _, hlen, _⟩ := c6_related_lists
    [⟨1, "a", "X", "flat", 100, none, none, none, none⟩,
     ⟨2, "b", "X", "house", 200, none, none, none, none⟩,
     ⟨3, "c", "Y", "flat", 150, none, none, none, none⟩] "1" 1
    ⟨1, "a", "X", "flat", 100, none, none, none, none⟩ (by decide) (by decide)
  exact ⟨r, hr, hlen⟩

/-- C7 (amended): on an existing target id, the city statistics cover every
distinct city of the whole collection (the target's included), list each city
once with its exact count, the counts sum to the collection size, and the
pairs are ordered by descending count — all unconditionally; PROVIDED no
city value is a canonical array-index string (an all-digit name such as
"2"), ties are additionally broken by first-encountered order — the
underlying JS object enumerates array-index keys first in ascending numeric
order, which can reorder ties.  The same holds for the type statistics keyed
by type, with the proviso on the type names. -/
theorem c7_stats_amended (data : List Listing) (s : String) (n : Int) (t : Listing)
    (h1 : jsParseInt s = some n) (h2 : data.find? (fun x => x.id == n) = some t) :
    ∃ r, getRelatedListingData data s = RelatedResult.ok r ∧
      r.cityStats = statsOf (fun x => x.city) data ∧
      r.typeStats = statsOf (fun x => x.type) data ∧
      (∀ c, c ∈ r.cityStats.map Prod.fst ↔ ∃ x ∈ data, x.city = c) ∧
      (r.cityStats.map Prod.fst).Nodup ∧
      (∀ p ∈ r.cityStats, p.2 = data.countP (fun x => x.city == p.1)) ∧
      (r.cityStats.map Prod.snd).sum = data.length ∧
      r.cityStats.Pairwise (fun p q => q.2 ≤ p.2) ∧
      (countByKey (fun x => x.city) data).map Prod.fst =
        firstKeys (data.map (fun x => x.city)) ∧
      ((∀ x ∈ data, isArrayIndexStr x.city = none) →
        ∀ m : Nat, r.cityStats.filter (fun p => decide (p.2 = m)) =
          (countByKey (fun x => x.city) data).filter (fun p => decide (p.2 = m))) ∧
      (∀ c, c ∈ r.typeStats.map Prod.fst ↔ ∃ x ∈ data, x.type = c) ∧
      (r.typeStats.map Prod.fst).Nodup ∧
      (∀ p ∈ r.typeStats, p.2 = data.countP (fun x => x.type == p.1)) ∧
      (r.typeStats.map Prod.snd).sum = data.length ∧
      r.typeStats.Pairwise (fun p q => q.2 ≤ p.2) ∧
      (countByKey (fun x => x.type) data).map Prod.fst =
        firstKeys (data.map (fun x => x.type)) ∧
      ((∀ x ∈ data, isArrayIndexStr x.type = none) →
        ∀ m : Nat, r.typeStats.filter (fun p => decide (p.2 = m)) =
          (countByKey (fun x => x.type) data).filter (fun p => decide (p.2 = m))) := by
  obtain ⟨hc1, hc2, hc3, hc4, hc5, hc6⟩ := statsOf_spec_base (fun x => x.city) data
  obtain ⟨ht1, ht2, ht3, ht4, ht5, ht6⟩ := statsOf_spec_base (fun x => x.type) data
  exact ⟨_, getRelatedListingData_ok data s n t h1 h2, rfl, rfl,
    hc1, hc2, hc3, hc4, hc5, hc6,
    fun hcity => statsOf_spec_ties (fun x => x.city) data hcity,
    ht1, ht2, ht3, ht4, ht5, ht6,
    fun htype => statsOf_spec_ties (fun x => x.type) data htype⟩

/-- Witness for C7 (amended) at a concrete collection, exercising both the
unconditional sum conjunct and the conditional tie-break conjunct. -/
theorem c7_stats_amended_witness :
    ∃ r, getRelatedListingData
        [⟨1, "a", "X", "flat", 100, none, none, none, none⟩,
         ⟨2, "b", "X", "flat", 200, none, none, none, none⟩] "1" =
      RelatedResult.ok r ∧ (r.cityStats.map Prod.snd).sum = 2 ∧
      r.cityStats.filter (fun p => decide (p.2 = 1)) =
        (countByKey (fun x => x.city)
          [⟨1, "a", "X", "flat", 100, none, none, none, none⟩,
           ⟨2, "b", "X", "flat", 200, none, none, none, none⟩]).filter
          (fun p => decide (p.2 = 1)) := by
  obtain ⟨r, hr, _, _, _, _, _, hsum, _, _, htie, _⟩ := c7_stats_amended
    [⟨1, "a", "X", "flat", 100, none, none, none, none⟩,
     ⟨2, "b", "X", "flat", 200, none, none, none, none⟩] "1" 1
    ⟨1, "a", "X", "flat", 100, none, none, none, none⟩
    (by decide) (by decide)
  exact ⟨r, hr, hsum, htie (by decide) 1⟩

/-- C7 counterexample: with the two cities named "2" and "1" — canonical
array-index property keys — and all counts tied at 1, the claimed
descending-count order with first-encountered tie-break would put "2" first,
but `Object.entries` enumerates integer-like keys in ascending numeric
order, so the code answers [("1", 1), ("2", 1)]: the tie is not broken by
first-encountered order. -/
theorem c7_stats_counterexample :
    (∃ r, getRelatedListingData
        [⟨1, "a", "2", "t", 100, none, none, none, none⟩,
         ⟨2, "b", "1", "t", 200, none, none, none, none⟩] "1" = RelatedResult.ok r ∧
      r.cityStats = [("1", 1), ("2", 1)]) ∧
    firstKeys ([⟨1, "a", "2", "t", 100, none, none, none, none⟩,
        ⟨2, "b", "1", "t", 200, none, none, none, none⟩].map
      (fun x : Listing => x.city)) = ["2", "1"] ∧
    ([("1", 1), ("2", 1)] : List (String × Nat)).map Prod.fst ≠ ["2", "1"] := by
  refine ⟨⟨_, rfl, by decide⟩, by decide, by decide⟩

/-- C8: neither search nor related mutates the mock collection.  In the
store-passing embedding — where the copying spread and each `filter` allocate
fresh arrays and `sort` writes its receiver in place — the array holding the
collection reads back unchanged after either operation, and each response is
the pure function of the collection's contents (a freshly derived view). -/
theorem c8_no_mutation (h0 : Heap) (mock : Nat) (f : Filters) (s : String)
    (hm : mock < h0.length) :
    hRead (getListingsListH h0 mock f).1 mock = hRead h0 mock ∧
    (getListingsListH h0 mock f).2 = getListingsList (hRead h0 mock) f ∧
    hRead (getRelatedListingDataH h0 mock s).1 mock = hRead h0 mock ∧
    (getRelatedListingDataH h0 mock s).2 = getRelatedListingData (hRead h0 mock) s := by
  obtain ⟨a, b⟩ := getListingsListH_spec h0 mock f hm
  obtain ⟨c, d⟩ := getRelatedListingDataH_spec h0 mock s hm
  exact ⟨a, b, c, d⟩

/-- Witness for C8 at a concrete store. -/
theorem c8_no_mutation_witness :
    hRead (getListingsListH [[⟨1, "a", "X", "t", 1, none, none, none, none⟩]] 0
        ⟨none, none, none, NumParam.absent, NumParam.absent, NumParam.absent, none⟩).1 0 =
      hRead [[⟨1, "a", "X", "t", 1, none, none, none, none⟩]] 0 :=
  (c8_no_mutation [[⟨1, "a", "X", "t", 1, none, none, none, none⟩]] 0
    ⟨none, none, none, NumParam.absent, NumParam.absent, NumParam.absent, none⟩
    "1" (by decide)).1

/-- C9: when no two listings of the filtered set share a price, sorting with
`price_desc` yields exactly the reverse of sorting with `price_asc` on the
same collection and filters. -/
theorem c9_price_sorts_reverse (data : List Listing) (f : Filters)
    (h : ((filterListings data f).map (fun x => x.price)).Nodup) :
    (getListingsList data { f with sort := some "price_desc" }).listings =
      (getListingsList data { f with sort := some "price_asc" }).listings.reverse := by
  show applySort (some "price_desc") (filterListings data f) =
    (applySort (some "price_asc") (filterListings data f)).reverse
  have ha : applySort (some "price_asc") (filterListings data f) =
      sortByKey (fun x => x.price) (filterListings data f) := by
    unfold applySort
    rw [if_pos rfl]
  have hd : applySort (some "price_desc") (filterListings data f) =
      sortByKey (fun x => -x.price) (filterListings data f) := by
    unfold applySort
    rw [if_neg (by simp), if_pos rfl]
  rw [ha, hd]
  set L := filterListings data f with hL
  set A := sortByKey (fun x : Listing => x.price) L with hA
  set D := sortByKey (fun x : Listing => -x.price) L with hD
  have hpA : List.Perm A L := sortByKey_perm _ _
  have hpD : List.Perm D L := sortByKey_perm _ _
  have hndA : (A.map (fun x => x.price)).Nodup := ((hpA.map _).nodup_iff).mpr h
  have hndD : (D.map (fun x => x.price)).Nodup := ((hpD.map _).nodup_iff).mpr h
  have hsA : A.Pairwise (fun a b => a.price < b.price) :=
    pairwise_lt_of_le_of_nodup _ A (sortByKey_pairwise _ L) hndA
  have hsD' : D.Pairwise (fun a b => b.price ≤ a.price) :=
    sortByKey_pairwise_neg (fun x => x.price) L
  have hneD : D.Pairwise (fun a b => a.price ≠ b.price) := List.pairwise_map.mp hndD
  have hsD : D.Pairwise (fun a b => b.price < a.price) :=
    (hsD'.and hneD).imp (fun hab => lt_of_le_of_ne hab.1 (Ne.symm hab.2))
  have hrev : D.reverse.Pairwise (fun a b => a.price < b.price) :=
    List.pairwise_reverse.mpr hsD
  have hperm : List.Perm A D.reverse :=
    hpA.trans ((List.reverse_perm D).trans hpD).symm
  haveI : IsAntisymm Listing (fun a b => a.price < b.price) :=
    ⟨fun a b hab hba => (lt_asymm hab hba).elim⟩
  have heq : A = D.reverse := List.eq_of_perm_of_sorted hperm hsA hrev
  rw [heq, List.reverse_reverse]

/-- Witness for C9 at a concrete collection with distinct prices. -/
theorem c9_price_sorts_reverse_witness :
    (getListingsList
        [⟨1, "a", "X", "t", 100, none, none, none, none⟩,
         ⟨2, "b", "X", "t", 200, none, none, none, none⟩]
        ⟨none, none, none, NumParam.absent, NumParam.absent, NumParam.absent,
          some "price_desc"⟩).listings =
      (getListingsList
        [⟨1, "a", "X", "t", 100, none, none, none, none⟩,
         ⟨2, "b", "X", "t", 200, none, none, none, none⟩]
        ⟨none, none, none, NumParam.absent, NumParam.absent, NumParam.absent,
          some "price_asc"⟩).listings.reverse :=
  c9_price_sorts_reverse
    [⟨1, "a", "X", "t", 100, none, none, none, none⟩,
     ⟨2, "b", "X", "t", 200, none, none, none, none⟩]
    ⟨none, none, none, NumParam.absent, NumParam.absent, NumParam.absent, none⟩
    (by decide)

/-- C10: `getListingsList` trims the `q` parameter before the lowercase
substring test, so a padded `q` behaves exactly like its trimmed form; a
whitespace-only or empty `q` normalizes to the empty needle and skips the
free-text stage entirely, matching an absent `q`. -/
theorem c10_q_trimming (data : List Listing) (f : Filters) (s : String) :
    getListingsList data { f with q := some s } =
      getListingsList data { f with q := some (jsTrim s) } ∧
    (jsTrim s = "" →
      getListingsList data { f with q := some s } =
        getListingsList data { f with q := none }) := by
  have hq : qNorm { f with q := some (jsTrim s) } = qNorm { f with q := some s } := by
    show jsLower (jsTrim (jsTrim s)) = jsLower (jsTrim s)
    rw [jsTrim_idem]
  have hstage : qStage { f with q := some (jsTrim s) } = qStage { f with q := some s } := by
    unfold qStage
    rw [hq]
  constructor
  · unfold getListingsList filterListings stages
    rw [hstage]
    rfl
  · intro h0
    have e1 : qStage { f with q := some s } = none := by
      unfold qStage
      rw [show qNorm { f with q := some s } = "" from by
        show jsLower (jsTrim s) = ""
        rw [h0]
        decide]
      rw [if_pos rfl]
    have e2 : qStage { f with q := none } = none := by
      unfold qStage
      rw [show qNorm { f with q := none } = "" from by
        show jsLower (jsTrim "") = ""
        decide]
      rw [if_pos rfl]
    unfold getListingsList filterListings stages
    rw [e1, e2]
    rfl

/-- Witness for C10: a padded and a whitespace-only needle. -/
theorem c10_q_trimming_witness :
    getListingsList []
        ⟨some "  flat  ", none, none, NumParam.absent, NumParam.absent,
          NumParam.absent, none⟩ =
      getListingsList []
        ⟨some (jsTrim "  flat  "), none, none, NumParam.absent, NumParam.absent,
          NumParam.absent, none⟩ ∧
    getListingsList []
        ⟨some "   ", none, none, NumParam.absent, NumParam.absent,
          NumParam.absent, none⟩ =
      getListingsList []
        ⟨none, none, none, NumParam.absent, NumParam.absent, NumParam.absent, none⟩ :=
  ⟨(c10_q_trimming []
      ⟨none, none, none, NumParam.absent, NumParam.absent, NumParam.absent, none⟩
      "  flat  ").1,
   (c10_q_trimming []
      ⟨none, none, none, NumParam.absent, NumParam.absent, NumParam.absent, none⟩
      "   ").2 (by decide)⟩

end Proposal
